import Mathlib

/-!
Shallow embedding of `controller/webhook/server.go` from the linkerd2 webhook
package: the admission-review request processor (`serve`, `processReq`,
`decode`) and the certificate hot-reload machinery (`updateCert`,
`getCertificate`, `run`, `NewServer`).

Modelling conventions:
* The external YAML/JSON decoder (`sigs.k8s.io/yaml.Unmarshal`, which converts
  YAML to JSON and then runs `encoding/json` unmarshalling into the
  `AdmissionReview` struct) is modelled concretely over a small JSON value
  type, following Go's `encoding/json` semantics: unknown keys are ignored,
  `null` is a no-op, a type mismatch records the first error but decoding of
  the remaining fields continues, and a failed top-level decode leaves the
  target struct in its zero value (in particular `Request` stays nil).
* Go nil-pointer dereferences (runtime panics) are modelled by `Option`:
  a function that would crash returns `none` / `ServeResult.crashed`.
* `json.Marshal` and `http.ResponseWriter.Write` are external effects; `serve`
  takes them as function parameters (`marshal`, `write`) so theorems quantify
  over every possible outcome of those effects.
* `pkgTls.ReadPEMCreds` and `tls.X509KeyPair` are external to the file under
  study; the PEM/X509 parsing steps are abstract function parameters, while
  the file reads of `ReadPEMCreds` are explicit against a filesystem model
  `Fs`, since which paths get read is exactly what the server code chooses.
-/

namespace Webhook

/-- JSON values, the image of a YAML body under sigs.k8s.io/yaml's
YAML-to-JSON conversion. -/
inductive Json where
  | null
  | bool (b : Bool)
  | num (n : Int)
  | str (s : String)
  | arr (elems : List Json)
  | obj (fields : List (String × Json))

/-- Model of `admissionv1beta1.AdmissionRequest`: the UID plus the (opaque)
object under review. Other fields are not consulted by server.go. -/
structure AdmissionRequest where
  uid : String
  object : Option Json

/-- Model of `metav1.Status` as used by server.go: only the message field. -/
structure Status where
  message : String

/-- Model of `admissionv1beta1.AdmissionResponse`: UID, the allow/deny bit,
the optional result status and the optional patch. -/
structure AdmissionResponse where
  uid : String
  allowed : Bool
  result : Option Status
  patch : Option String

/-- Model of `admissionv1beta1.AdmissionReview`: an optional request and an
optional response; both are pointers in Go, `none` models nil. -/
structure AdmissionReview where
  request : Option AdmissionRequest
  response : Option AdmissionResponse

/-- The zero value of the `AdmissionReview` struct (both pointers nil). -/
def emptyReview : AdmissionReview := { request := none, response := none }

/-- Field-wise decoding of a JSON value into `*AdmissionRequest`
(encoding/json semantics): `null` leaves the pointer nil; an object
allocates the struct and fills the known fields in input order, keeping
the first type error while continuing; any other value is a type error
that leaves the pointer nil. -/
def unmarshalRequest : Json → Option AdmissionRequest × Option String
  | Json.null => (none, none)
  | Json.obj fields =>
    let step : AdmissionRequest × Option String → String × Json →
        AdmissionRequest × Option String :=
      fun acc kv =>
        match kv with
        | ("uid", Json.str s) => ({ acc.1 with uid := s }, acc.2)
        | ("uid", Json.null) => acc
        | ("uid", _) =>
          (acc.1, acc.2 <|> some "cannot unmarshal value into field uid of type string")
        | ("object", j) => ({ acc.1 with object := some j }, acc.2)
        | _ => acc
    let r := fields.foldl step ({ uid := "", object := none }, none)
    (some r.1, r.2)
  | _ => (none, some "cannot unmarshal value into AdmissionRequest")

/-- Field-wise decoding of a JSON value into `*metav1.Status`, same
conventions as `unmarshalRequest`. -/
def unmarshalStatus : Json → Option Status × Option String
  | Json.null => (none, none)
  | Json.obj fields =>
    let step : Status × Option String → String × Json → Status × Option String :=
      fun acc kv =>
        match kv with
        | ("message", Json.str s) => ({ message := s }, acc.2)
        | ("message", Json.null) => acc
        | ("message", _) =>
          (acc.1, acc.2 <|> some "cannot unmarshal value into field message of type string")
        | _ => acc
    let r := fields.foldl step ({ message := "" }, none)
    (some r.1, r.2)
  | _ => (none, some "cannot unmarshal value into Status")

/-- Field-wise decoding of a JSON value into `*AdmissionResponse`, same
conventions as `unmarshalRequest`. -/
def unmarshalResponse : Json → Option AdmissionResponse × Option String
  | Json.null => (none, none)
  | Json.obj fields =>
    let step : AdmissionResponse × Option String → String × Json →
        AdmissionResponse × Option String :=
      fun acc kv =>
        match kv with
        | ("uid", Json.str s) => ({ acc.1 with uid := s }, acc.2)
        | ("uid", Json.null) => acc
        | ("uid", _) =>
          (acc.1, acc.2 <|> some "cannot unmarshal value into field uid of type string")
        | ("allowed", Json.bool b) => ({ acc.1 with allowed := b }, acc.2)
        | ("allowed", Json.null) => acc
        | ("allowed", _) =>
          (acc.1, acc.2 <|> some "cannot unmarshal value into field allowed of type bool")
        | ("status", j) =>
          match unmarshalStatus j with
          | (st, e) => ({ acc.1 with result := st <|> acc.1.result }, acc.2 <|> e)
        | ("patch", Json.str s) => ({ acc.1 with patch := some s }, acc.2)
        | ("patch", Json.null) => acc
        | ("patch", _) =>
          (acc.1, acc.2 <|> some "cannot unmarshal value into field patch of type bytes")
        | _ => acc
    let r := fields.foldl step ({ uid := "", allowed := false, result := none, patch := none }, none)
    (some r.1, r.2)
  | _ => (none, some "cannot unmarshal value into AdmissionResponse")

/-- Decoding of a JSON value into the `AdmissionReview` struct itself:
`null` is a no-op, an object fills the `request` and `response` fields
(unknown keys ignored), any other value fails leaving the struct zeroed. -/
def unmarshalReview : Json → AdmissionReview × Option String
  | Json.null => (emptyReview, none)
  | Json.obj fields =>
    let step : AdmissionReview × Option String → String × Json →
        AdmissionReview × Option String :=
      fun acc kv =>
        match kv with
        | ("request", j) =>
          match unmarshalRequest j with
          | (req, e) => ({ acc.1 with request := req <|> acc.1.request }, acc.2 <|> e)
        | ("response", j) =>
          match unmarshalResponse j with
          | (resp, e) => ({ acc.1 with response := resp <|> acc.1.response }, acc.2 <|> e)
        | _ => acc
    fields.foldl step (emptyReview, none)
  | _ => (emptyReview, some "cannot unmarshal value into AdmissionReview")

/-- A non-empty request body as seen through `yaml.Unmarshal`: either the
bytes are not syntactically valid YAML (Unmarshal fails, target untouched)
or they convert to a JSON value that is then decoded into the struct. -/
inductive BodyData where
  | syntaxErr (msg : String)
  | val (j : Json)

/-- Model of server.go's `decode`: `yaml.Unmarshal(data, &admissionReview)`,
returning the (possibly partially filled) struct together with the error. -/
def decode : BodyData → AdmissionReview × Option String
  | BodyData.syntaxErr m => (emptyReview, some m)
  | BodyData.val j => unmarshalReview j

/-- Model of the injected `Handler`. The Go handler also receives a context,
the API accessor and the event recorder; those are opaque collaborators that
do not influence server.go's own control flow, so the model quantifies over
every function of the request. The Go return type `(*AdmissionResponse,
error)` becomes a pair of options. -/
abbrev Handler := AdmissionRequest → Option AdmissionResponse × Option String

/-- The body of `processReq` applied to the result of `decode`. The two
`none` branches model Go nil-pointer dereferences: when `decode` reports an
error, `processReq` reads `admissionReview.Request.UID` to build the denial,
and when decoding succeeded it logs `admissionReview.Request.UID`; in both
places a nil `Request` crashes at runtime. -/
def processReqAux (handler : Handler) : AdmissionReview × Option String → Option AdmissionReview
  | (admissionReview, some e) =>
    match admissionReview.request with
    | none => none
    | some req =>
      some { admissionReview with
             response := some { uid := req.uid, allowed := false,
                                result := some { message := e }, patch := none } }
  | (admissionReview, none) =>
    match admissionReview.request with
    | none => none
    | some req =>
      match handler req with
      | (_, some e) =>
        some { admissionReview with
               response := some { uid := req.uid, allowed := false,
                                  result := some { message := e }, patch := none } }
      | (resp, none) => some { admissionReview with response := resp }

/-- Model of server.go's `processReq`: decode the body, dispatch to the
handler, attach the response to the review. `none` models a runtime crash. -/
def processReq (handler : Handler) (data : BodyData) : Option AdmissionReview :=
  processReqAux handler (decode data)

/-- The request body as `serve` observes it: `req.Body == nil`, a failed
`ioutil.ReadAll`, a successful read of zero bytes, or non-empty content. -/
inductive ReqBody where
  | absent
  | readErr (e : String)
  | empty
  | content (data : BodyData)

/-- Observable outcome of one `serve` call: no body written (empty payload),
an `http.Error` with its status code and plain-text message, a success write
of the encoded review, or a runtime crash inside `processReq`. -/
inductive ServeResult where
  | noResponse
  | httpError (status : Nat) (msg : String)
  | success (review : AdmissionReview)
  | crashed

/-- Model of server.go's `serve`: read the body (absent body reads no bytes
and falls into the empty case), treat an empty payload as a no-op, process
the request, marshal the review and write it, answering any read/marshal/
write error with `http.Error(res, err.Error(), http.StatusInternalServerError)`
(status 500). `marshal` and `write` are the external JSON encoder and
connection write. -/
def serve (handler : Handler)
    (marshal : AdmissionReview → Except String String)
    (write : String → Option String) :
    ReqBody → ServeResult
  | ReqBody.absent => ServeResult.noResponse
  | ReqBody.readErr e => ServeResult.httpError 500 e
  | ReqBody.empty => ServeResult.noResponse
  | ReqBody.content data =>
    match processReq handler data with
    | none => ServeResult.crashed
    | some response =>
      match marshal response with
      | Except.error e => ServeResult.httpError 500 e
      | Except.ok responseJSON =>
        match write responseJSON with
        | some e => ServeResult.httpError 500 e
        | none => ServeResult.success response

/-- A filesystem snapshot: path to file contents, `none` meaning the read
fails (missing file or I/O error). -/
abbrev Fs := String → Option String

/-- Model of `pkgTls.Creds` as consumed by `updateCert`: `EncodePEM` and
`EncodePrivateKeyPEM` give back the certificate and key PEM strings. -/
structure Creds where
  certPEM : String
  keyPEM : String

/-- Model of a parsed `tls.Certificate`; its contents are opaque to
server.go, only identity matters. -/
structure Cert where
  raw : String

/-- Fixed mount-path constant `pkgk8s.MountPathTLSKeyPEM` (from pkg/k8s,
outside this file): a process-wide constant, not derived from `certPath`. -/
def mountPathTLSKeyPEM : String := "/var/run/linkerd/tls/tls.key"

/-- Fixed mount-path constant `pkgk8s.MountPathTLSCrtPEM` (from pkg/k8s,
outside this file): a process-wide constant, not derived from `certPath`. -/
def mountPathTLSCrtPEM : String := "/var/run/linkerd/tls/tls.crt"

/-- Model of `pkgTls.ReadPEMCreds(keyPath, crtPath)`: read both files from
the filesystem and parse them into credentials; the PEM parsing itself is
the abstract `parse` parameter. -/
def readPEMCreds (parse : String → String → Except String Creds) (fs : Fs)
    (keyPath crtPath : String) : Except String Creds :=
  match fs keyPath with
  | none => Except.error ("error reading " ++ keyPath)
  | some keyData =>
    match fs crtPath with
    | none => Except.error ("error reading " ++ crtPath)
    | some crtData => parse keyData crtData

/-- The shared certificate store: the `cert` field of `Server`, guarded in Go
by `certMutex`. -/
structure CertStore where
  cert : Option Cert

/-- Model of server.go's `updateCert`: read the credentials from the fixed
mount paths, re-encode them, parse the key pair (`tls.X509KeyPair`, the
abstract `x509KeyPair` parameter), and only on success replace the stored
certificate. Returns the store after the call plus the error, mirroring the
Go method that mutates `s.cert` only after both steps succeed. -/
def updateCert (parse : String → String → Except String Creds)
    (x509KeyPair : String → String → Except String Cert)
    (fs : Fs) (s : CertStore) : CertStore × Option String :=
  match readPEMCreds parse fs mountPathTLSKeyPEM mountPathTLSCrtPEM with
  | Except.error e => (s, some ("failed to read cert from disk: " ++ e))
  | Except.ok creds =>
    match x509KeyPair creds.certPEM creds.keyPEM with
    | Except.error e => (s, some e)
    | Except.ok cert => ({ cert := some cert }, none)

/-- Model of server.go's `getCertificate` callback body: return the stored
certificate and a nil error. -/
def getCertificate (s : CertStore) : Option Cert × Option String := (s.cert, none)

/-- One notification from the creds watcher: a message on the update channel
or an error on the error channel. -/
inductive WatchEvent where
  | updated
  | failed (err : String)

/-- One iteration of server.go's `run` select loop: an update event invokes
`updateCert` (a failed update is logged with `log.Warnf` and skipped, leaving
the store as it was); an error event is only logged (`log.Warnf`), changing
nothing. Neither branch terminates the loop or the process. -/
def runStep (parse : String → String → Except String Creds)
    (x509KeyPair : String → String → Except String Cert)
    (fs : Fs) (s : CertStore) : WatchEvent → CertStore
  | WatchEvent.updated => (updateCert parse x509KeyPair fs s).1
  | WatchEvent.failed _ => s

/-- Model of server.go's `run` loop over a finite sequence of delivered
events: events are consumed in order, each by `runStep`; the Go loop itself
is infinite, so any finite prefix of the delivered events is processed
exactly like this fold. -/
def run (parse : String → String → Except String Creds)
    (x509KeyPair : String → String → Except String Cert)
    (fs : Fs) (events : List WatchEvent) (s : CertStore) : CertStore :=
  events.foldl (runStep parse x509KeyPair fs) s

/-- The parts of the `Server` struct the claims observe: the path handed to
the creds watcher at construction, the injected handler, and the
certificate store. -/
structure Server where
  watchPath : String
  handler : Handler
  store : CertStore

/-- Model of `NewServer`: hand `certPath` to the filesystem watcher, then run
the initial `updateCert` (reading from the fixed mount paths); a failed
initial load is fatal (`log.Fatalf`), modelled as an error result. -/
def newServer (parse : String → String → Except String Creds)
    (x509KeyPair : String → String → Except String Cert)
    (fs : Fs) (certPath : String) (handler : Handler) : Except String Server :=
  match updateCert parse x509KeyPair fs { cert := none } with
  | (_, some e) => Except.error ("Failed to initialized certificate: " ++ e)
  | (st, none) => Except.ok { watchPath := certPath, handler := handler, store := st }

/-- The UID carried by the response of an exchange, when a response is
present. -/
def responseUID (rev : AdmissionReview) : Option String :=
  rev.response.map AdmissionResponse.uid

/-- True when construction succeeded. -/
def newServerOk (r : Except String Server) : Bool :=
  match r with
  | Except.ok _ => true
  | Except.error _ => false

/-- The denial review `processReq` synthesizes on a decode or handler error:
the decoded review with a response carrying the request UID, `Allowed =
false` and the error text as the result message. -/
def denialReview (rev : AdmissionReview) (req : AdmissionRequest) (e : String) :
    AdmissionReview :=
  { rev with response := some { uid := req.uid, allowed := false,
                                result := some { message := e }, patch := none } }

/-! Concrete instances used by witnesses and counterexamples. -/

/-- A handler that allows every request, echoing its UID. -/
def hAllow : Handler := fun req =>
  (some { uid := req.uid, allowed := true, result := none, patch := none }, none)

/-- A handler that fails on every request. -/
def hFail : Handler := fun _ => (none, some "boom")

/-- A handler that succeeds but reports a UID different from the request's. -/
def hWrongUID : Handler := fun _ =>
  (some { uid := "x", allowed := true, result := none, patch := none }, none)

/-- The body `[request: [uid: abc]]`: decodes cleanly into a review whose
request has UID `abc`. -/
def bodyWellFormed : BodyData :=
  BodyData.val (Json.obj [("request", Json.obj [("uid", Json.str "abc")])])

/-- The body `[request: [uid: 5]]`: the request object is allocated but its
`uid` field has the wrong type, so decoding reports an error while the
request pointer is non-nil with a zero UID. -/
def bodyBadUID : BodyData :=
  BodyData.val (Json.obj [("request", Json.obj [("uid", Json.num 5)])])

/-- The error message `decode` reports for `bodyBadUID`. -/
def badUIDMsg : String := "cannot unmarshal value into field uid of type string"

/-- The request decoded from `bodyWellFormed`. -/
def reqABC : AdmissionRequest := { uid := "abc", object := none }

/-- The zero-valued request decoded from `bodyBadUID`. -/
def reqZero : AdmissionRequest := { uid := "", object := none }

/-- The review decoded from `bodyWellFormed`. -/
def revWellFormed : AdmissionReview := { request := some reqABC, response := none }

/-- The review decoded from `bodyBadUID`. -/
def revBad : AdmissionReview := { request := some reqZero, response := none }

/-- The allow-response `hAllow` returns for `reqABC`. -/
def respAllowABC : AdmissionResponse :=
  { uid := "abc", allowed := true, result := none, patch := none }

/-- A marshaller that always succeeds (as `json.Marshal` does on these
structs). -/
def mEnc : AdmissionReview → Except String String := fun _ => Except.ok "encoded"

/-- A marshaller that fails. -/
def mFail : AdmissionReview → Except String String :=
  fun _ => Except.error "marshal fail"

/-- A connection write that succeeds. -/
def wOk : String → Option String := fun _ => none

/-- A connection write that fails. -/
def wFail : String → Option String := fun _ => some "write fail"

/-- A PEM parse that always succeeds. -/
def parseOk : String → String → Except String Creds :=
  fun k c => Except.ok { certPEM := c, keyPEM := k }

/-- An X509 key-pair parse that always succeeds. -/
def x509Ok : String → String → Except String Cert :=
  fun c k => Except.ok { raw := c ++ "|" ++ k }

/-- A filesystem holding material only at the fixed mount paths. -/
def fsMountOnly : Fs := fun p =>
  if p = mountPathTLSKeyPEM then some "KEY"
  else if p = mountPathTLSCrtPEM then some "CRT" else none

/-- A filesystem holding material only under the directory
`/custom/path` handed to `newServer` as `certPath`. -/
def fsCustomOnly : Fs := fun p =>
  if p = "/custom/path/tls.key" then some "KEY"
  else if p = "/custom/path/tls.crt" then some "CRT" else none

/-- A filesystem on which every read fails. -/
def fsNone : Fs := fun _ => none

/-- A store already holding a certificate. -/
def storeA : CertStore := { cert := some { raw := "A" } }

/-- The restriction of a filesystem to the two fixed mount paths. -/
def restrictToMountPaths (fs : Fs) : Fs :=
  fun p => if p = mountPathTLSKeyPEM ∨ p = mountPathTLSCrtPEM then fs p else none

/-! Claim theorems. -/

/-- C1: the claim says processing never crashes and `processReq` is total on
every malformed input. The code contradicts it: on a body that fails to
decode with a nil `Request` pointer (any body whose top level is not an
object, or any YAML syntax error), `processReq` dereferences
`admissionReview.Request.UID` while `Request` is nil and crashes, so `serve`
crashes instead of answering. This theorem evaluates the code at two such
failing inputs. -/
theorem serve_crashes_on_unparsable_body :
    serve hAllow mEnc wOk
        (ReqBody.content (BodyData.syntaxErr "error converting YAML to JSON"))
      = ServeResult.crashed
    ∧ processReq hAllow (BodyData.val (Json.arr [Json.num 1, Json.num 2, Json.num 3]))
      = none :=
  ⟨rfl, rfl⟩

/-- C2 counterexample: for the body `"garbage"` (a YAML scalar), decoding
fails and no UID can be extracted (`Request` is nil); the claim demands a
synthesized `Allowed = false` exchange, but `processReq` crashes on the nil
dereference and returns no exchange at all. -/
theorem processReq_crashes_without_extractable_request :
    processReq hAllow (BodyData.val (Json.str "garbage")) = none := rfl

/-- C2 (amended): whenever decoding fails but a request was still extracted,
or decoding succeeds and the handler errors, the returned exchange carries a
synthesized response with `Allowed = false`, the error text as the result
message, and the UID copied from the request; on decode failure the handler
is never invoked (the result does not depend on it). When no request could
be extracted the processor crashes instead (see the counterexample). -/
theorem processReq_failure_paths_synthesize_denial
    (h h₂ : Handler) (d : BodyData) (rev : AdmissionReview)
    (req : AdmissionRequest) (e : String) :
    (decode d = (rev, some e) → rev.request = some req →
      processReq h d = some (denialReview rev req e)
      ∧ processReq h d = processReq h₂ d)
    ∧ (decode d = (rev, none) → rev.request = some req → (h req).2 = some e →
      processReq h d = some (denialReview rev req e)) := by
  constructor
  · intro hd hreq
    constructor <;> simp [processReq, hd, processReqAux, hreq, denialReview]
  · intro hd hreq he
    cases hh : h req with
    | mk r er =>
      rw [hh] at he
      simp only at he
      subst he
      simp [processReq, hd, processReqAux, hreq, hh, denialReview]

/-- Witness for C2: concrete instances of both failure paths, plus the
independence of the decode-failure path from the injected handler. -/
theorem processReq_failure_paths_synthesize_denial_witness :
    processReq hFail bodyWellFormed = some (denialReview revWellFormed reqABC "boom")
    ∧ processReq hAllow bodyBadUID = some (denialReview revBad reqZero badUIDMsg)
    ∧ processReq hAllow bodyBadUID = processReq hFail bodyBadUID :=
  ⟨(processReq_failure_paths_synthesize_denial hFail hFail bodyWellFormed
      revWellFormed reqABC "boom").2 rfl rfl rfl,
   ((processReq_failure_paths_synthesize_denial hAllow hFail bodyBadUID
      revBad reqZero badUIDMsg).1 rfl rfl).1,
   ((processReq_failure_paths_synthesize_denial hAllow hFail bodyBadUID
      revBad reqZero badUIDMsg).1 rfl rfl).2⟩

/-- C4: an empty request body (and likewise an absent one, which reads zero
bytes) is a no-op: no response body is written, no exchange is constructed,
no error status is returned, and the result does not depend on the handler,
which is therefore never invoked. -/
theorem serve_empty_body_is_noop (h : Handler)
    (marshal : AdmissionReview → Except String String)
    (write : String → Option String) :
    serve h marshal write ReqBody.empty = ServeResult.noResponse
    ∧ serve h marshal write ReqBody.absent = ServeResult.noResponse :=
  ⟨rfl, rfl⟩

/-- C5: when decoding succeeds with a request present and the handler
returns without error, the handler's response (even a nil one) is placed in
the exchange verbatim; the rest of the review is unchanged. -/
theorem processReq_forwards_handler_response_verbatim
    (h : Handler) (d : BodyData) (rev : AdmissionReview) (req : AdmissionRequest)
    (resp : Option AdmissionResponse) :
    decode d = (rev, none) → rev.request = some req → h req = (resp, none) →
    processReq h d = some { rev with response := resp } := by
  intro hd hreq hh
  simp [processReq, hd, processReqAux, hreq, hh]

/-- Witness for C5: the allow-everything handler's response is forwarded
unchanged, UID included. -/
theorem processReq_forwards_handler_response_verbatim_witness :
    processReq hAllow bodyWellFormed
      = some { revWellFormed with response := some respAllowABC } :=
  processReq_forwards_handler_response_verbatim hAllow bodyWellFormed
    revWellFormed reqABC (some respAllowABC) rfl rfl rfl

/-- C3 counterexample: the body `[request: [uid: 5]]` cannot be parsed into
a valid envelope (`decode` reports an error), yet `serve` does NOT answer
with a non-2xx plain-text error: it answers with the normal success write of
an `Allowed = false` review, exactly like a well-formed-but-invalid review.
No parse-failure branch in `serve` ever reaches `http.Error`. -/
theorem serve_answers_malformed_body_with_success :
    (decode bodyBadUID).2 = some badUIDMsg
    ∧ serve hAllow mEnc wOk (ReqBody.content bodyBadUID)
      = ServeResult.success (denialReview revBad reqZero badUIDMsg)
    ∧ (denialReview revBad reqZero badUIDMsg).response.map AdmissionResponse.allowed
      = some false :=
  ⟨rfl, rfl, rfl⟩

/-- C3 (amended): a request whose body cannot be parsed into an envelope is
answered the same way as a well-formed-but-invalid review: with an HTTP
success write carrying an `Allowed = false` ReviewResponse (provided a
request could still be extracted and the encode and write steps succeed);
there is no non-2xx plain-text parse-error path. -/
theorem serve_malformed_body_yields_allowed_false_success
    (h : Handler) (marshal : AdmissionReview → Except String String)
    (write : String → Option String) (d : BodyData) (rev : AdmissionReview)
    (req : AdmissionRequest) (e : String) (js : String) :
    decode d = (rev, some e) → rev.request = some req →
    marshal (denialReview rev req e) = Except.ok js →
    write js = none →
    serve h marshal write (ReqBody.content d)
      = ServeResult.success (denialReview rev req e) := by
  intro hd hreq hm hw
  simp [serve, processReq, hd, processReqAux, hreq, denialReview] at hm ⊢
  simp [hm, hw]

/-- Witness for C3: concrete malformed body answered with the success write
of the denial review. -/
theorem serve_malformed_body_yields_allowed_false_success_witness :
    serve hAllow mEnc wOk (ReqBody.content bodyBadUID)
      = ServeResult.success (denialReview revBad reqZero badUIDMsg) :=
  serve_malformed_body_yields_allowed_false_success hAllow mEnc wOk bodyBadUID
    revBad reqZero badUIDMsg "encoded" rfl rfl rfl rfl

/-- C6 counterexample: the body parses successfully with request UID `abc`,
but the injected handler returns a response with UID `x`, which the
processor forwards verbatim: the exchange's response UID is `x`, not `abc`.
The invariant does not hold for every injected handler. -/
theorem processReq_does_not_enforce_uid_invariant :
    decode bodyWellFormed = (revWellFormed, none)
    ∧ revWellFormed.request = some reqABC
    ∧ (processReq hWrongUID bodyWellFormed).map responseUID = some (some "x")
    ∧ ("x" : String) ≠ "abc" :=
  ⟨rfl, rfl, rfl, by decide⟩

/-- C6 (amended): for every body successfully parsed into a request, the
response UID equals the request UID whenever the handler returns an error
(the processor synthesizes it); when the handler succeeds, the exchange
carries the handler's UID verbatim, so the invariant holds exactly for
handlers that echo the request UID. -/
theorem processReq_uid_echoed_unless_handler_overrides
    (h : Handler) (d : BodyData) (rev : AdmissionReview) (req : AdmissionRequest)
    (resp : AdmissionResponse) (e : String) :
    (decode d = (rev, none) → rev.request = some req → (h req).2 = some e →
      (processReq h d).map responseUID = some (some req.uid))
    ∧ (decode d = (rev, none) → rev.request = some req → h req = (some resp, none) →
      (processReq h d).map responseUID = some (some resp.uid)) := by
  constructor
  · intro hd hreq he
    cases hh : h req with
    | mk r er =>
      rw [hh] at he
      simp only at he
      subst he
      simp [processReq, hd, processReqAux, hreq, hh, responseUID]
  · intro hd hreq hh
    simp [processReq, hd, processReqAux, hreq, hh, responseUID]

/-- Witness for C6: on the same parsed request, a failing handler yields the
echoed UID `abc`, while a succeeding handler's own UID `x` is kept. -/
theorem processReq_uid_echoed_unless_handler_overrides_witness :
    (processReq hFail bodyWellFormed).map responseUID = some (some "abc")
    ∧ (processReq hWrongUID bodyWellFormed).map responseUID = some (some "x") :=
  ⟨(processReq_uid_echoed_unless_handler_overrides hFail bodyWellFormed
      revWellFormed reqABC respAllowABC "boom").1 rfl rfl rfl,
   (processReq_uid_echoed_unless_handler_overrides hWrongUID bodyWellFormed
      revWellFormed reqABC { uid := "x", allowed := true, result := none, patch := none }
      "boom").2 rfl rfl rfl⟩

/-- C7: whenever `updateCert` returns an error - a failed file read or a
failed parse of the key or certificate - the store is exactly what it was
before the call, and `getCertificate` keeps serving the prior material. The
new material is read and parsed before the store is touched. -/
theorem updateCert_failure_leaves_store_unchanged
    (parse : String → String → Except String Creds)
    (x509KeyPair : String → String → Except String Cert)
    (fs : Fs) (s : CertStore) (e : String) :
    (updateCert parse x509KeyPair fs s).2 = some e →
    (updateCert parse x509KeyPair fs s).1 = s
    ∧ getCertificate (updateCert parse x509KeyPair fs s).1 = getCertificate s := by
  intro h2
  cases hr : readPEMCreds parse fs mountPathTLSKeyPEM mountPathTLSCrtPEM with
  | error e' => simp [updateCert, hr]
  | ok creds =>
    cases hx : x509KeyPair creds.certPEM creds.keyPEM with
    | error e' => simp [updateCert, hr, hx]
    | ok cert =>
      simp [updateCert, hr, hx] at h2

/-- Witness for C7: a failing read leaves a populated store untouched. -/
theorem updateCert_failure_leaves_store_unchanged_witness :
    (updateCert parseOk x509Ok fsNone storeA).1 = storeA
    ∧ getCertificate (updateCert parseOk x509Ok fsNone storeA).1
      = getCertificate storeA :=
  updateCert_failure_leaves_store_unchanged parseOk x509Ok fsNone storeA
    "failed to read cert from disk: error reading /var/run/linkerd/tls/tls.key" rfl

/-- C8: in the `run` event loop, a `Failed` event is only logged: it changes
no state, terminates nothing, and every later event in the delivered
sequence - in particular every later `Updated` event - is consumed exactly
as it would have been without the failure. The loop body has no exit path at
all, so it runs until the process is cancelled from outside. -/
theorem run_failed_events_do_not_block_updates
    (parse : String → String → Except String Creds)
    (x509KeyPair : String → String → Except String Cert)
    (fs : Fs) (evs₁ evs₂ : List WatchEvent) (e : String) (s : CertStore) :
    run parse x509KeyPair fs (evs₁ ++ WatchEvent.failed e :: evs₂) s
      = run parse x509KeyPair fs (evs₁ ++ evs₂) s := by
  simp [run, List.foldl_append, runStep]

/-- C9 counterexample: a server constructed with `certPath = "/custom/path"`
fails its initial certificate load on a filesystem whose only material sits
under `/custom/path`, and succeeds on a filesystem that has nothing under
`/custom/path` but has material at the fixed mount paths: the material is
not read from the paths supplied at construction. -/
theorem newServer_ignores_certPath_for_material :
    newServerOk (newServer parseOk x509Ok fsCustomOnly "/custom/path" hAllow) = false
    ∧ newServerOk (newServer parseOk x509Ok fsMountOnly "/custom/path" hAllow) = true
    ∧ fsCustomOnly "/custom/path/tls.key" = some "KEY"
    ∧ fsCustomOnly "/custom/path/tls.crt" = some "CRT"
    ∧ fsMountOnly "/custom/path/tls.key" = none
    ∧ fsMountOnly "/custom/path/tls.crt" = none :=
  ⟨rfl, rfl, rfl, rfl, rfl, rfl⟩

/-- C9 (amended): the certificate and key material loaded at startup and on
every rotation is read exclusively from the two fixed mount-path constants:
`updateCert` sees only the restriction of the filesystem to those two paths,
and the certificate store produced by `newServer` is independent of the
`certPath` argument, which only tells the filesystem watcher where to
listen. -/
theorem updateCert_reads_only_mount_paths
    (parse : String → String → Except String Creds)
    (x509KeyPair : String → String → Except String Cert)
    (fs : Fs) (s : CertStore) (c₁ c₂ : String) (h : Handler) :
    updateCert parse x509KeyPair fs s
      = updateCert parse x509KeyPair (restrictToMountPaths fs) s
    ∧ (newServer parse x509KeyPair fs c₁ h).map Server.store
      = (newServer parse x509KeyPair fs c₂ h).map Server.store := by
  constructor
  · simp [updateCert, readPEMCreds, restrictToMountPaths]
  · simp only [newServer]
    cases updateCert parse x509KeyPair fs { cert := none } with
    | mk st er => cases er <;> simp [Except.map]

/-- C10: for a non-empty request, a failed body read, a failed JSON encode
of the computed exchange, and a failed write of the encoded response are
each answered with `http.Error` status 500 carrying the error's text; the
handling is a pure function of the single request's inputs and touches no
other server state. -/
theorem serve_transport_failures_return_500
    (h : Handler) (marshal : AdmissionReview → Except String String)
    (write : String → Option String) :
    (∀ e, serve h marshal write (ReqBody.readErr e) = ServeResult.httpError 500 e)
    ∧ (∀ d rev e, processReq h d = some rev → marshal rev = Except.error e →
        serve h marshal write (ReqBody.content d) = ServeResult.httpError 500 e)
    ∧ (∀ d rev js e, processReq h d = some rev → marshal rev = Except.ok js →
        write js = some e →
        serve h marshal write (ReqBody.content d) = ServeResult.httpError 500 e) := by
  refine ⟨fun e => rfl, ?_, ?_⟩
  · intro d rev e hp hm
    simp [serve, hp, hm]
  · intro d rev js e hp hm hw
    simp [serve, hp, hm, hw]

/-- Witness for C10: concrete read, marshal and write failures each produce
the 500 answer with the error's text. -/
theorem serve_transport_failures_return_500_witness :
    serve hAllow mEnc wOk (ReqBody.readErr "io fail")
      = ServeResult.httpError 500 "io fail"
    ∧ serve hAllow mFail wOk (ReqBody.content bodyWellFormed)
      = ServeResult.httpError 500 "marshal fail"
    ∧ serve hAllow mEnc wFail (ReqBody.content bodyWellFormed)
      = ServeResult.httpError 500 "write fail" :=
  ⟨(serve_transport_failures_return_500 hAllow mEnc wOk).1 "io fail",
   (serve_transport_failures_return_500 hAllow mFail wOk).2.1 bodyWellFormed
     { revWellFormed with response := some respAllowABC } "marshal fail" rfl rfl,
   (serve_transport_failures_return_500 hAllow mEnc wFail).2.2 bodyWellFormed
     { revWellFormed with response := some respAllowABC } "encoded" "write fail"
     rfl rfl rfl⟩

end Webhook

